import Mathlib

/-!
Verification development for the modular-api repository.

Shallow embedding of the request-handling core:
  * `rateLimiter.js`   — `checkRateLimit` (fixed-window counter)
  * `apiKeyManager.js` — `hasPermission`, `checkAndUpdateQuota`
  * `routes/api.js`    — `findMatchingRoute`, `matchPath`, `extractParams`,
                         the catch-all request handler
  * `middleware/auth.js` — `apiAuth` (probe-all-methods credential lookup)
  * `services/codeRunner.js` — the `close` / `error` handlers of `runJavaScript`

Machine integers of the source are JS numbers used as non-negative epoch
milliseconds and counters; they are modelled as `Nat`.  JS `Map`s and the
prisma tables are modelled as association lists.  Real time, process
scheduling and the JSON parser are taken as explicit parameters.
-/

namespace MApi

/-! ### JS string helpers (structural, so the kernel can evaluate them) -/

/-- JS whitespace test for `String.prototype.trim` (common subset). -/
def isWs (c : Char) : Bool :=
  c = ' ' || c = '\n' || c = '\t' || c = '\r'

/-- `s.trim()`. -/
def jsTrim (s : String) : String :=
  String.mk (((s.data.dropWhile isWs).reverse.dropWhile isWs).reverse)

/-- `listIsPre pre l` is `true` iff `pre` is an initial run of `l`
(mirrors JS `String.prototype.startsWith`). -/
def listIsPre : List Char → List Char → Bool
  | [], _ => true
  | _, [] => false
  | a :: as, b :: bs => a == b && listIsPre as bs

/-- `s.startsWith(pre)`. -/
def strStarts (pre s : String) : Bool :=
  listIsPre pre.data s.data

/-- `s.toLowerCase()` (ASCII, as used for header names). -/
def strToLower (s : String) : String :=
  String.mk (s.data.map Char.toLower)

/-- Split on a separator char, keeping empty fields:
JS `s.split(sep)`. -/
def splitAllAux (sep : Char) (acc : List Char) : List Char → List String
  | [] => [String.mk acc.reverse]
  | c :: cs =>
    if c = sep then String.mk acc.reverse :: splitAllAux sep [] cs
    else splitAllAux sep (c :: acc) cs

def splitAll (sep : Char) (s : String) : List String :=
  splitAllAux sep [] s.data

/-- Split on a separator char dropping empty fields:
JS `s.split(sep).filter(Boolean)`. -/
def splitSegsAux (sep : Char) (acc : List Char) : List Char → List String
  | [] => if acc.isEmpty then [] else [String.mk acc.reverse]
  | c :: cs =>
    if c = sep then
      (if acc.isEmpty then splitSegsAux sep [] cs
       else String.mk acc.reverse :: splitSegsAux sep [] cs)
    else splitSegsAux sep (c :: acc) cs

/-- `path.split('/').filter(Boolean)` — the segment list of a path. -/
def segments (s : String) : List String :=
  splitSegsAux '/' [] s.data

/-- JS truthiness filter for strings: `undefined`/`''` count as absent. -/
def truthy : Option String → Option String
  | some s => if s = "" then none else some s
  | none => none

/-- Association-list read (request headers, query parameters). -/
def alistGet (l : List (String × String)) (k : String) : Option String :=
  (l.find? (fun p => p.1 == k)).map (fun p => p.2)

/-! ### RateLimiter (`rateLimiter.js`) -/

/-- One value of the in-memory store: `{ count, resetAt }`. -/
structure RLEntry where
  count : Nat
  resetAt : Nat
  deriving DecidableEq, Repr

/-- The module-level `store` Map, passed explicitly. -/
abbrev RLStore := List (String × RLEntry)

/-- `store.get(key)`. -/
def rlGet : RLStore → String → Option RLEntry
  | [], _ => none
  | (k, v) :: rest, key => if k = key then some v else rlGet rest key

/-- `store.set(key, e)`. -/
def rlSet : RLStore → String → RLEntry → RLStore
  | [], key, e => [(key, e)]
  | (k, v) :: rest, key, e =>
    if k = key then (key, e) :: rest else (k, v) :: rlSet rest key e

/-- The destructured `config` argument of `checkRateLimit`
(defaults as in the source). -/
structure RLConfig where
  routeId : String
  requests : Nat := 100
  window : Nat := 60
  enabled : Bool := true
  deriving DecidableEq, Repr

/-- The result object of `checkRateLimit`.  `remaining = none` models the
JS `Infinity` of the disabled branch, `resetAt = none` models `null`, and
absent object fields are `none`. -/
structure RLResult where
  allowed : Bool
  remaining : Option Nat
  resetAt : Option Nat
  limit : Option Nat := none
  window : Option Nat := none
  retryAfter : Option Nat := none
  deriving DecidableEq, Repr

/-- `generateKey(identifier, routeId)`. -/
def generateKey (identifier routeId : String) : String :=
  routeId ++ ":" ++ identifier

/-- `checkRateLimit(identifier, config)` with the store and the clock
(`Date.now()`, epoch ms) passed explicitly; returns the result together
with the updated store. -/
def checkRateLimit (store : RLStore) (now : Nat) (identifier : String)
    (cfg : RLConfig) : RLResult × RLStore :=
  if !cfg.enabled then
    ({ allowed := true, remaining := none, resetAt := none }, store)
  else
    let key := generateKey identifier cfg.routeId
    let windowMs := cfg.window * 1000
    let entry : RLEntry :=
      match rlGet store key with
      | some e => if e.resetAt < now then { count := 0, resetAt := now + windowMs } else e
      | none => { count := 0, resetAt := now + windowMs }
    let entry2 : RLEntry := { entry with count := entry.count + 1 }
    let store2 := rlSet store key entry2
    let remaining := cfg.requests - entry2.count
    let allowed := decide (entry2.count ≤ cfg.requests)
    ({ allowed := allowed
       remaining := some remaining
       resetAt := some entry2.resetAt
       limit := some cfg.requests
       window := some cfg.window
       retryAfter := if allowed then none else some ((entry2.resetAt - now + 999) / 1000) },
     store2)

/-! ### ApiKeyManager (`apiKeyManager.js`) -/

/-- A prisma `apiKey` record (the fields the core reads/writes).
Timestamps are epoch milliseconds; `none` models SQL `NULL`. -/
structure ApiKeyRec where
  id : String
  key : String
  enabled : Bool := true
  authMethod : String := "header"
  customHeader : Option String := none
  permissions : String := "*"
  quotaEnabled : Bool := false
  quotaLimit : Nat := 10000
  quotaPeriod : String := "day"
  quotaUsed : Nat := 0
  quotaResetAt : Option Nat := none
  expiresAt : Option Nat := none
  deriving DecidableEq, Repr

/-- The prisma `apiKey` table, passed explicitly. -/
abbrev KeyDb := List ApiKeyRec

/-- `prisma.apiKey.findUnique({ where: { id } })`. -/
def dbFindById (db : KeyDb) (i : String) : Option ApiKeyRec :=
  db.find? (fun k => k.id == i)

/-- `prisma.apiKey.findUnique({ where: { key } })`. -/
def dbFindByKey (db : KeyDb) (key : String) : Option ApiKeyRec :=
  db.find? (fun k => k.key == key)

/-- `prisma.apiKey.update({ where: { id }, data })`. -/
def dbUpdateById (db : KeyDb) (i : String) (f : ApiKeyRec → ApiKeyRec) : KeyDb :=
  db.map (fun k => if k.id == i then f k else k)

/-- `hasPermission(apiKey, routeId)`; the clock of `new Date()` is the
`now` parameter. -/
def hasPermission (now : Nat) (k : ApiKeyRec) (routeId : String) : Bool :=
  if !k.enabled then false
  else if (match k.expiresAt with | some e => decide (e < now) | none => false) then false
  else if k.permissions == "*" then true
  else
    let permittedRoutes := (splitAll ',' k.permissions).map jsTrim
    permittedRoutes.contains routeId || permittedRoutes.contains "*"

/-- The result object of `checkAndUpdateQuota`. -/
structure QuotaResult where
  allowed : Bool
  used : Option Nat := none
  limit : Option Nat := none
  resetAt : Option Nat := none
  error : Option String := none
  deriving DecidableEq, Repr

/-- The `switch (apiKey.quotaPeriod)` computing the next reset boundary.
`calMonth now` stands for `new Date(y, m+1, d).getTime()` — the calendar
computation of the `month`/default case, which depends on the real
calendar and is passed as a parameter. -/
def quotaNextReset (calMonth : Nat → Nat) (period : String) (now : Nat) : Nat :=
  if period == "day" then now + 24 * 60 * 60 * 1000
  else if period == "week" then now + 7 * 24 * 60 * 60 * 1000
  else calMonth now

/-- `checkAndUpdateQuota(prisma, apiKeyId)`; returns the result together
with the updated table. -/
def checkAndUpdateQuota (calMonth : Nat → Nat) (db : KeyDb) (now : Nat)
    (apiKeyId : String) : QuotaResult × KeyDb :=
  match dbFindById db apiKeyId with
  | none => ({ allowed := true }, db)
  | some apiKey =>
    if !apiKey.quotaEnabled then ({ allowed := true }, db)
    else
      let shouldReset :=
        match apiKey.quotaResetAt with
        | none => true
        | some resetAt => decide (resetAt ≤ now)   -- `now >= resetAt`
      if shouldReset then
        let nextReset := quotaNextReset calMonth apiKey.quotaPeriod now
        ({ allowed := true, used := some 1, limit := some apiKey.quotaLimit
           resetAt := some nextReset },
         dbUpdateById db apiKeyId
           (fun kk => { kk with quotaUsed := 1, quotaResetAt := some nextReset }))
      else if apiKey.quotaLimit ≤ apiKey.quotaUsed then   -- `quotaUsed >= quotaLimit`
        ({ allowed := false, used := some apiKey.quotaUsed, limit := some apiKey.quotaLimit
           resetAt := apiKey.quotaResetAt, error := some "Quota exceeded" }, db)
      else
        ({ allowed := true, used := some (apiKey.quotaUsed + 1), limit := some apiKey.quotaLimit
           resetAt := apiKey.quotaResetAt },
         dbUpdateById db apiKeyId (fun kk => { kk with quotaUsed := kk.quotaUsed + 1 }))

/-! ### Route matching (`routes/api.js`) -/

/-- A prisma `apiRoute` record (the fields the core reads). -/
structure Route where
  id : String
  path : String
  method : String
  enabled : Bool := true
  authType : String := "none"
  rateLimitEnabled : Bool := false
  rateLimitRequests : Nat := 100
  rateLimitWindow : Nat := 60
  rateLimitBy : String := "ip"
  language : String := "javascript"
  code : String := ""
  deriving DecidableEq, Repr

/-- `seg.startsWith(':')` for a path segment. -/
def segIsParam (seg : String) : Bool :=
  match seg.data with
  | c :: _ => c = ':'
  | [] => false

/-- `seg.slice(1)` — the parameter name of a marker segment. -/
def segParamName (seg : String) : String :=
  String.mk (seg.data.drop 1)

/-- The comparison loop of `matchPath` over the two segment lists
(the JS code first rejects unequal lengths and then walks the indices;
walking both lists together folds in the length check). -/
def matchSegs : List String → List String → Bool
  | [], [] => true
  | p :: ps, q :: qs => (segIsParam p || p == q) && matchSegs ps qs
  | _, _ => false

/-- `matchPath(pattern, path)`. -/
def matchPath (pattern path : String) : Bool :=
  matchSegs (segments pattern) (segments path)

/-- The extraction loop of `extractParams`: for marker segments record
`params[name] = pathParts[i]`; an out-of-range index is JS `undefined`,
modelled as `none`.  The JS object is modelled as the association list
of assignments in loop order. -/
def extractSegsParams : List String → List String → List (String × Option String)
  | [], _ => []
  | p :: ps, qs =>
    (if segIsParam p then [(segParamName p, qs.head?)] else [])
      ++ extractSegsParams ps qs.tail

/-- `extractParams(pattern, path)`. -/
def extractParams (pattern path : String) : List (String × Option String) :=
  extractSegsParams (segments pattern) (segments path)

/-- `findMatchingRoute(prisma, path, method)`: first an exact
`findFirst({ where: { path, method } })`, then a scan of
`findMany({ where: { method } })` with `matchPath`.  The table is the
route list in storage order. -/
def findMatchingRoute (routes : List Route) (path method : String) : Option Route :=
  match routes.find? (fun r => r.path == path && r.method == method) with
  | some route => some route
  | none =>
    (routes.filter (fun r => r.method == method)).find? (fun r => matchPath r.path path)

/-! ### Auth middleware (`middleware/auth.js`) -/

/-- The parts of a fastify request the core reads.  Header names are
stored lowercased, as fastify delivers them. -/
structure RequestRec where
  method : String := "GET"
  path : String := "/"
  url : String := "/"
  ip : String := "0.0.0.0"
  headers : List (String × String) := []
  query : List (String × String) := []
  deriving DecidableEq, Repr

/-- Pipeline outcome tags (used to tell the distinct failure responses
apart; the HTTP status travels next to it). -/
inductive RespKind where
  | notFound | disabled | unauthorized | forbidden | quotaExceeded
  | rateLimited | execResult
  deriving DecidableEq, Repr

/-- Stages of the request pipeline, recorded in execution order. -/
inductive Stage where
  | resolve | auth | quota | rateLimit | execute
  deriving DecidableEq, Repr

/-- Outcome of the `apiAuth` middleware: pass (with the credential
attached as `request.apiKey`) or an error reply already sent. -/
inductive AuthOutcome where
  | allow : Option ApiKeyRec → AuthOutcome
  | reject : Nat → RespKind → AuthOutcome
  deriving DecidableEq, Repr

/-- The `Authorization: Bearer` extraction of step 2. -/
def bearerToken (req : RequestRec) : Option String :=
  match alistGet req.headers "authorization" with
  | some h => if strStarts "Bearer " h then some (String.mk (h.data.drop 7)) else none
  | none => none

/-- The probe-all-methods credential search of `apiAuth`
(steps 1–4: `x-api-key` header, bearer token, query parameter,
registered custom headers; each pinned to the key's `authMethod`). -/
def probeApiKey (db : KeyDb) (req : RequestRec) : Option ApiKeyRec :=
  let step1 : Option ApiKeyRec :=
    match truthy (alistGet req.headers "x-api-key") with
    | some ek =>
      match dbFindByKey db ek with
      | some k => if k.authMethod == "header" then some k else none
      | none => none
    | none => none
  let step2 : Option ApiKeyRec :=
    match bearerToken req with
    | some tok =>
      match dbFindByKey db tok with
      | some k => if k.authMethod == "bearer" then some k else none
      | none => none
    | none => none
  let step3 : Option ApiKeyRec :=
    match (truthy (alistGet req.query "api_key")).orElse
            (fun _ => truthy (alistGet req.query "apikey")) with
    | some ek =>
      match dbFindByKey db ek with
      | some k => if k.authMethod == "query" then some k else none
      | none => none
    | none => none
  let step4 : Option ApiKeyRec :=
    (db.filter (fun k => k.authMethod == "custom" && k.enabled)).findSome?
      (fun ck =>
        match ck.customHeader with
        | some ch =>
          if ch = "" then none   -- `if (ck.customHeader)` truthiness
          else
            match alistGet req.headers (strToLower ch) with
            | some ek => if ek == ck.key then some ck else none
            | none => none
        | none => none)
  ((step1.orElse (fun _ => step2)).orElse (fun _ => step3)).orElse (fun _ => step4)

/-- `apiAuth(prisma)` applied to a request whose `dynamicRoute` is
`route` (the pipeline sets it before calling the middleware).  Returns
the outcome, the updated key table, and the stages it ran (`.quota`
when `checkAndUpdateQuota` was invoked). -/
def apiAuth (calMonth : Nat → Nat) (db : KeyDb) (now : Nat) (route : Route)
    (req : RequestRec) : AuthOutcome × KeyDb × List Stage :=
  if route.authType == "none" then (.allow none, db, [])
  else
    match probeApiKey db req with
    | none => (.reject 401 .unauthorized, db, [])
    | some apiKey =>
      if !apiKey.enabled then (.reject 401 .unauthorized, db, [])
      else if (match apiKey.expiresAt with
               | some e => decide (e < now)
               | none => false) then
        (.reject 401 .unauthorized, db, [])
      else if !(hasPermission now apiKey route.id) then
        (.reject 403 .forbidden, db, [])
      else
        let qr := checkAndUpdateQuota calMonth db now apiKey.id
        if !qr.1.allowed then (.reject 429 .quotaExceeded, qr.2, [.quota])
        else (.allow (some apiKey), qr.2, [.quota])

/-! ### Execution results (`services/codeRunner.js`) -/

/-- A JS response body as the handlers build it: `null`, a string, or an
`{ error: msg }` object. -/
inductive BodyVal where
  | nullB
  | strB : String → BodyVal
  | errObj : String → BodyVal
  deriving DecidableEq, Repr

/-- The parsed sentinel envelope `{status, body, headers}`. -/
structure ResultEnv where
  status : Nat := 200
  body : BodyVal := .nullB
  headers : List (String × String) := []
  deriving DecidableEq, Repr

/-- A resolution value of `runJavaScript` (the timing fields are real
time and are outside the embedding). -/
structure RunResult where
  success : Bool
  status : Nat
  body : BodyVal := .nullB
  headers : List (String × String) := []
  logs : Option String := none
  deriving DecidableEq, Repr

/-! ### The catch-all request handler (`routes/api.js`) -/

/-- The context object handed to `executeCode` (the body field is passed
through unmodelled). -/
structure ExecContext where
  method : String
  path : String
  params : List (String × Option String)
  query : List (String × String)
  headers : List (String × String)
  deriving DecidableEq, Repr

/-- The final response the handler emits (status and outcome tag). -/
structure PipeResponse where
  status : Nat
  kind : RespKind
  deriving DecidableEq, Repr

/-- The `fastify.all('/*')` handler: resolve the route, check `enabled`,
run `apiAuth`, run the rate limiter, extract params and execute.
`exec` abstracts `executeCode`; `calMonth` as in `checkAndUpdateQuota`.
Returns the response, the updated key table, the updated rate-limit
store, and the stage trace. -/
def handleRequest (exec : ExecContext → RunResult) (calMonth : Nat → Nat)
    (routes : List Route) (db : KeyDb) (store : RLStore) (now : Nat)
    (req : RequestRec) : PipeResponse × KeyDb × RLStore × List Stage :=
  match findMatchingRoute routes req.path req.method with
  | none => ({ status := 404, kind := .notFound }, db, store, [.resolve])
  | some route =>
    if !route.enabled then
      ({ status := 503, kind := .disabled }, db, store, [.resolve])
    else
      match apiAuth calMonth db now route req with
      | (.reject st kind, db1, atr) =>
        ({ status := st, kind := kind }, db1, store, .resolve :: .auth :: atr)
      | (.allow keyOpt, db1, atr) =>
        let rlStep : Option PipeResponse × RLStore × List Stage :=
          if route.rateLimitEnabled then
            let identifier :=
              match keyOpt with
              | some k => if route.rateLimitBy == "apikey" then k.key else req.ip
              | none => req.ip
            let rl := checkRateLimit store now identifier
              { routeId := route.id, requests := route.rateLimitRequests
                window := route.rateLimitWindow, enabled := route.rateLimitEnabled }
            if !rl.1.allowed then
              (some { status := 429, kind := .rateLimited }, rl.2, [.rateLimit])
            else (none, rl.2, [.rateLimit])
          else (none, store, [])
        match rlStep with
        | (some resp, store1, rtr) =>
          (resp, db1, store1, .resolve :: .auth :: atr ++ rtr)
        | (none, store1, rtr) =>
          let params := extractParams route.path req.path
          let ctx : ExecContext :=
            { method := req.method, path := req.path, params := params
              query := req.query, headers := req.headers }
          let result := exec ctx
          ({ status := result.status, kind := .execResult }, db1, store1,
           .resolve :: .auth :: atr ++ rtr ++ [.execute])

/-! ### The `runJavaScript` exit handlers (`services/codeRunner.js`) -/

/-- The capture of `line.match` against one line for the sentinel regex
`/__RESULT__(.+)$/m`: everything after the first occurrence of the
token, provided it is non-empty. -/
def lineCapture (line : List Char) : Option (List Char) :=
  match line with
  | [] => none
  | c :: rest =>
    if listIsPre "__RESULT__".data (c :: rest) then
      let tail := (c :: rest).drop "__RESULT__".data.length
      if tail.isEmpty then none else some tail
    else lineCapture rest

/-- `stdout.match(/__RESULT__(.+)$/m)`: the capture of the first line
holding the sentinel followed by at least one character. -/
def sentinelCapture (stdout : String) : Option String :=
  ((splitAll '\n' stdout).findSome? (fun l => lineCapture l.data)).map String.mk

/-- Drop everything from the first sentinel occurrence to its line end,
on the first line where the sentinel regex matches — the
`stdout.replace(/__RESULT__.+$/m, '')` of the `logs` field
(non-global `replace`: only the first match is removed). -/
def stripSentinelLines : List String → List String
  | [] => []
  | line :: rest =>
    match lineCapture line.data with
    | some cap =>
      String.mk (line.data.take (line.data.length - ("__RESULT__".data.length + cap.length)))
        :: rest
    | none => line :: stripSentinelLines rest

def stripSentinel (stdout : String) : String :=
  jsTrim (String.intercalate "\n" (stripSentinelLines (splitAll '\n' stdout)))

/-- The body of the `child.on('close', ...)` handler after the cleanup:
scan stdout for the sentinel, else report stderr, else return the raw
trimmed stdout as a 200.  `parse` abstracts `JSON.parse` (`none` models
a parse exception). -/
def runJsCloseResult (parse : String → Option ResultEnv) (stdout stderr : String) :
    RunResult :=
  match sentinelCapture stdout with
  | some cap =>
    match parse cap with
    | some env =>
      { success := true, status := env.status, body := env.body
        headers := env.headers, logs := some (stripSentinel stdout) }
    | none =>
      { success := false, status := 500, body := .errObj "Erreur de parsing du resultat" }
  | none =>
    if stderr == "" then
      { success := true, status := 200
        body := if jsTrim stdout = "" then .nullB else .strB (jsTrim stdout) }
    else
      { success := false, status := 500, body := .errObj (jsTrim stderr) }

/-- File-system side effects of the handlers. -/
inductive FsEffect where
  | unlink : String → FsEffect
  deriving DecidableEq, Repr

/-- How an invocation of `runJavaScript` terminates: the child's
`close` event (with the accumulated stdout/stderr — after a timeout the
child was sent SIGTERM and `close` fires with whatever was captured), or
the `error` event (spawn failure). -/
inductive ExitEvent where
  | close : String → String → ExitEvent
  | procError : String → ExitEvent
  deriving DecidableEq, Repr

/-- The two exit handlers of `runJavaScript`: each first unlinks the
harness temp file (`try { unlinkSync(tempFile) } catch {}`) and then
resolves the promise. -/
def runJsOnExit (parse : String → Option ResultEnv) (tempFile : String) :
    ExitEvent → List FsEffect × RunResult
  | .close stdout stderr => ([.unlink tempFile], runJsCloseResult parse stdout stderr)
  | .procError msg =>
    ([.unlink tempFile], { success := false, status := 500, body := .errObj msg })

/-! ## Helper lemmas -/

theorem rlGet_rlSet_self (s : RLStore) (k : String) (e : RLEntry) :
    rlGet (rlSet s k e) k = some e := by
  induction s with
  | nil => simp [rlSet, rlGet]
  | cons hd tl ih =>
    by_cases h : hd.1 = k
    · simp [rlSet, rlGet, h]
    · simp [rlSet, rlGet, h, ih]

theorem rlGet_rlSet_other (s : RLStore) (k k2 : String) (e : RLEntry)
    (hne : k2 ≠ k) : rlGet (rlSet s k e) k2 = rlGet s k2 := by
  have hne' : k ≠ k2 := fun h => hne h.symm
  induction s with
  | nil =>
    show (if k = k2 then some e else none) = none
    rw [if_neg hne']
  | cons hd tl ih =>
    show rlGet (if hd.1 = k then (k, e) :: tl else hd :: rlSet tl k e) k2
        = (if hd.1 = k2 then some hd.2 else rlGet tl k2)
    by_cases h : hd.1 = k
    · rw [if_pos h]
      show (if k = k2 then some e else rlGet tl k2)
          = (if hd.1 = k2 then some hd.2 else rlGet tl k2)
      rw [if_neg hne', if_neg (h ▸ hne')]
    · rw [if_neg h]
      show (if hd.1 = k2 then some hd.2 else rlGet (rlSet tl k e) k2)
          = (if hd.1 = k2 then some hd.2 else rlGet tl k2)
      rw [ih]

theorem dbFindById_dbUpdateById (db : KeyDb) (i : String) (k : ApiKeyRec)
    (f : ApiKeyRec → ApiKeyRec) (hf : ∀ x, (f x).id = x.id)
    (h : dbFindById db i = some k) :
    dbFindById (dbUpdateById db i f) i = some (f k) := by
  induction db with
  | nil => simp [dbFindById] at h
  | cons hd tl ih =>
    by_cases hhd : hd.id = i
    · have hb : (hd.id == i) = true := by simp [hhd]
      have hk : hd = k := by
        simpa [dbFindById, List.find?, hb] using h
      subst hk
      simp [dbFindById, dbUpdateById, List.find?, hb, hf]
    · have hb : (hd.id == i) = false := by simp [hhd]
      have h2 : dbFindById tl i = some k := by
        simpa [dbFindById, List.find?, hb] using h
      have := ih h2
      simp only [dbFindById, dbUpdateById, List.map] at this ⊢
      simp only [hb, Bool.false_eq_true, if_false, List.find?, this]

theorem dbFindById_dbUpdateById_other (db : KeyDb) (i i2 : String)
    (f : ApiKeyRec → ApiKeyRec) (hf : ∀ x, (f x).id = x.id) (hne : i2 ≠ i) :
    dbFindById (dbUpdateById db i f) i2 = dbFindById db i2 := by
  have hne' : i ≠ i2 := fun h => hne h.symm
  induction db with
  | nil => rfl
  | cons hd tl ih =>
    simp only [dbFindById, dbUpdateById, List.map_cons] at ih ⊢
    by_cases hhd : hd.id = i
    · have h1 : ((f hd).id == i2) = false := by
        rw [hf hd, hhd]; exact beq_false_of_ne hne'
      have h2 : (hd.id == i2) = false := by
        rw [hhd]; exact beq_false_of_ne hne'
      rw [if_pos (beq_iff_eq.mpr hhd)]
      rw [List.find?_cons_of_neg _ (by simp [h1]), List.find?_cons_of_neg _ (by simp [h2])]
      exact ih
    · rw [if_neg (by simpa using hhd)]
      cases hcond : (hd.id == i2) with
      | true =>
        rw [List.find?_cons_of_pos _ (by simp [hcond]),
          List.find?_cons_of_pos _ (by simp [hcond])]
      | false =>
        rw [List.find?_cons_of_neg _ (by simp [hcond]),
          List.find?_cons_of_neg _ (by simp [hcond])]
        exact ih

/-- Characterisation of the segment-comparison loop. -/
theorem matchSegs_iff (pp qq : List String) :
    matchSegs pp qq = true ↔
      (pp.length = qq.length ∧
       ∀ pq ∈ pp.zip qq, segIsParam pq.1 = true ∨ pq.1 = pq.2) := by
  induction pp generalizing qq with
  | nil =>
    cases qq with
    | nil => simp [matchSegs]
    | cons q qs => simp [matchSegs]
  | cons p ps ih =>
    cases qq with
    | nil => simp [matchSegs]
    | cons q qs =>
      simp only [matchSegs, Bool.and_eq_true, Bool.or_eq_true, beq_iff_eq,
        List.zip_cons_cons, List.mem_cons, List.length_cons, ih]
      constructor
      · rintro ⟨h1, h2, h3⟩
        exact ⟨by omega, by rintro pq (rfl | hm); exacts [h1, h3 pq hm]⟩
      · rintro ⟨h1, h2⟩
        exact ⟨h2 (p, q) (Or.inl rfl), by omega, fun pq hm => h2 pq (Or.inr hm)⟩

/-- On equal-length segment lists the extraction loop is the zip of
marker names with the aligned path segments. -/
theorem extractSegsParams_eq_zip (pp qq : List String) (h : pp.length = qq.length) :
    extractSegsParams pp qq =
      (pp.zip qq).filterMap
        (fun pq => if segIsParam pq.1 then some (segParamName pq.1, some pq.2) else none) := by
  induction pp generalizing qq with
  | nil => simp [extractSegsParams]
  | cons p ps ih =>
    cases qq with
    | nil => simp at h
    | cons q qs =>
      simp only [List.length_cons] at h
      simp only [extractSegsParams, List.head?, List.tail, List.zip_cons_cons,
        List.filterMap_cons, ih qs (by omega)]
      by_cases hp : segIsParam p = true
      · simp [hp]
      · simp [hp]

/-! ## C4 — exact literal match preferred over parameterized match -/

/-- C4: for every set of registered routes and every (method, path)
request, `findMatchingRoute` returns a route whose path is an exact
literal match for (method, path) whenever one exists, in preference to
any parameterized match, regardless of registration order (the route
list is universally quantified, so every order is covered). -/
theorem resolve_exact_match_preferred :
    ∀ (routes : List Route) (path method : String),
      (∃ r ∈ routes, r.path = path ∧ r.method = method) →
      ∃ r2, findMatchingRoute routes path method = some r2 ∧
        r2 ∈ routes ∧ r2.path = path ∧ r2.method = method := by
  intro routes path method h
  obtain ⟨r, hr, hp, hm⟩ := h
  have hpred : (routes.find? (fun r => r.path == path && r.method == method)).isSome := by
    rw [List.find?_isSome]
    exact ⟨r, hr, by simp [hp, hm]⟩
  obtain ⟨r2, hr2⟩ := Option.isSome_iff_exists.mp hpred
  have hprop := List.find?_some hr2
  simp only [Bool.and_eq_true, beq_iff_eq] at hprop
  refine ⟨r2, ?_, List.mem_of_find?_eq_some hr2, hprop.1, hprop.2⟩
  unfold findMatchingRoute
  rw [hr2]

/-- A parameterized route registered first… -/
def c4Param : Route := { id := "rp", path := "/users/:id", method := "GET" }

/-- …and an exact route registered after it. -/
def c4Exact : Route := { id := "re", path := "/users/42", method := "GET" }

/-- C4 witness: with the parameterized route stored first, resolution of
`GET /users/42` still returns a route with the exact literal path. -/
theorem resolve_exact_match_preferred_witness :
    ∃ r2, findMatchingRoute [c4Param, c4Exact] "/users/42" "GET" = some r2 ∧
      r2 ∈ [c4Param, c4Exact] ∧ r2.path = "/users/42" ∧ r2.method = "GET" :=
  resolve_exact_match_preferred [c4Param, c4Exact] "/users/42" "GET"
    ⟨c4Exact, by simp, rfl, rfl⟩

/-! ## C5 — pattern matching and path-parameter extraction -/

/-- C5: a pattern matches iff the segment counts are equal and every
aligned pair is a parameter marker or a literal equality; on a matched
pattern the extraction maps each marker name to the aligned path
segment; `/users/:id/orders/:orderId` against `/users/42/orders/7`
yields `{id: "42", orderId: "7"}`. -/
theorem matchPath_extractParams_spec :
    (∀ pattern path, matchPath pattern path = true ↔
       ((segments pattern).length = (segments path).length ∧
        ∀ pq ∈ (segments pattern).zip (segments path),
          segIsParam pq.1 = true ∨ pq.1 = pq.2)) ∧
    (∀ pattern path, matchPath pattern path = true →
       extractParams pattern path =
         ((segments pattern).zip (segments path)).filterMap
           (fun pq => if segIsParam pq.1 then some (segParamName pq.1, some pq.2) else none)) ∧
    extractParams "/users/:id/orders/:orderId" "/users/42/orders/7" =
      [("id", some "42"), ("orderId", some "7")] := by
  refine ⟨fun pattern path => matchSegs_iff _ _, fun pattern path h => ?_, by decide⟩
  exact extractSegsParams_eq_zip _ _ (((matchSegs_iff _ _).mp h).1)

/-- C5 witness: the extraction equality instantiated on the example pair,
with the match hypothesis discharged concretely. -/
theorem matchPath_extractParams_spec_witness :
    matchPath "/users/:id/orders/:orderId" "/users/42/orders/7" = true ∧
    extractParams "/users/:id/orders/:orderId" "/users/42/orders/7" =
      ((segments "/users/:id/orders/:orderId").zip
        (segments "/users/42/orders/7")).filterMap
        (fun pq => if segIsParam pq.1 then some (segParamName pq.1, some pq.2) else none) :=
  ⟨by decide, matchPath_extractParams_spec.2.1 _ _ (by decide)⟩

/-! ## Rate limiter: step lemma shared by C2 and C10 -/

/-- What the effective entry of a check is based on: the stored entry if
live, a fresh zero entry if absent or expired. -/
def rlBase (store : RLStore) (now : Nat) (key : String) (windowMs : Nat) : RLEntry :=
  match rlGet store key with
  | some e => if e.resetAt < now then { count := 0, resetAt := now + windowMs } else e
  | none => { count := 0, resetAt := now + windowMs }

theorem checkRateLimit_step (store : RLStore) (now : Nat) (ident : String)
    (cfg : RLConfig) (h : cfg.enabled = true) :
    ∃ e : RLEntry,
      (checkRateLimit store now ident cfg).2
        = rlSet store (generateKey ident cfg.routeId) e ∧
      rlGet (checkRateLimit store now ident cfg).2 (generateKey ident cfg.routeId)
        = some e ∧
      e.count = (rlBase store now (generateKey ident cfg.routeId)
        (cfg.window * 1000)).count + 1 ∧
      e.resetAt = (rlBase store now (generateKey ident cfg.routeId)
        (cfg.window * 1000)).resetAt ∧
      (checkRateLimit store now ident cfg).1.allowed = decide (e.count ≤ cfg.requests) ∧
      (checkRateLimit store now ident cfg).1.remaining = some (cfg.requests - e.count) ∧
      (checkRateLimit store now ident cfg).1.resetAt = some e.resetAt ∧
      ((checkRateLimit store now ident cfg).1.allowed = false →
        (checkRateLimit store now ident cfg).1.retryAfter
          = some ((e.resetAt - now + 999) / 1000)) := by
  have hb : (!cfg.enabled) = false := by rw [h]; rfl
  refine ⟨{ count := (rlBase store now (generateKey ident cfg.routeId)
              (cfg.window * 1000)).count + 1
            resetAt := (rlBase store now (generateKey ident cfg.routeId)
              (cfg.window * 1000)).resetAt }, ?_, ?_, rfl, rfl, ?_, ?_, ?_, ?_⟩
  · simp only [checkRateLimit, hb, Bool.false_eq_true, if_false, rlBase]
  · simp only [checkRateLimit, hb, Bool.false_eq_true, if_false, rlBase]
    exact rlGet_rlSet_self _ _ _
  · simp only [checkRateLimit, hb, Bool.false_eq_true, if_false, rlBase]
  · simp only [checkRateLimit, hb, Bool.false_eq_true, if_false, rlBase]
  · simp only [checkRateLimit, hb, Bool.false_eq_true, if_false, rlBase]
  · intro hf
    simp only [checkRateLimit, hb, Bool.false_eq_true, if_false, rlBase] at hf ⊢
    simp only [hf, Bool.false_eq_true, if_false]

/-- A check whose key has no stored entry: the stored count becomes 1. -/
theorem rl_fresh (store : RLStore) (now : Nat) (ident : String) (cfg : RLConfig)
    (hen : cfg.enabled = true)
    (hget : rlGet store (generateKey ident cfg.routeId) = none) :
    (checkRateLimit store now ident cfg).1.allowed = decide (1 ≤ cfg.requests) ∧
    (checkRateLimit store now ident cfg).1.remaining = some (cfg.requests - 1) ∧
    (checkRateLimit store now ident cfg).2
      = rlSet store (generateKey ident cfg.routeId)
          { count := 1, resetAt := now + cfg.window * 1000 } := by
  obtain ⟨e, hs, _, hc, hr, ha, hrem, _, _⟩ := checkRateLimit_step store now ident cfg hen
  have hbase : rlBase store now (generateKey ident cfg.routeId) (cfg.window * 1000)
      = { count := 0, resetAt := now + cfg.window * 1000 } := by
    simp [rlBase, hget]
  rw [hbase] at hc hr
  have he : e = { count := 1, resetAt := now + cfg.window * 1000 } := by
    cases e; simp_all
  rw [he] at ha hrem hs
  exact ⟨ha, hrem, hs⟩

/-- A check whose key has a live (unexpired) stored entry: the stored
count is incremented by one, the window end is kept. -/
theorem rl_live (store : RLStore) (now : Nat) (ident : String) (cfg : RLConfig)
    (hen : cfg.enabled = true) (c ra : Nat)
    (hget : rlGet store (generateKey ident cfg.routeId) = some { count := c, resetAt := ra })
    (hlive : ¬ (ra < now)) :
    (checkRateLimit store now ident cfg).1.allowed = decide (c + 1 ≤ cfg.requests) ∧
    (checkRateLimit store now ident cfg).1.remaining = some (cfg.requests - (c + 1)) ∧
    (checkRateLimit store now ident cfg).2
      = rlSet store (generateKey ident cfg.routeId) { count := c + 1, resetAt := ra } := by
  obtain ⟨e, hs, _, hc, hr, ha, hrem, _, _⟩ := checkRateLimit_step store now ident cfg hen
  have hbase : rlBase store now (generateKey ident cfg.routeId) (cfg.window * 1000)
      = { count := c, resetAt := ra } := by
    simp [rlBase, hget, hlive]
  rw [hbase] at hc hr
  have he : e = { count := c + 1, resetAt := ra } := by
    cases e; simp_all
  rw [he] at ha hrem hs
  exact ⟨ha, hrem, hs⟩

/-! ## C2 — fixed-window rate limiting -/

/-- The configuration of the claimed scenario: `limit=3, window=60s`. -/
def rlConfig3 (rid : String) : RLConfig := { routeId := rid, requests := 3, window := 60 }

/-- Run consecutive checks for one key at the given times, collecting
the results (threading the store through the calls). -/
def rlConsecutive (times : List Nat) (ident rid : String) : List RLResult :=
  (times.foldl
    (fun (acc : RLStore × List RLResult) t =>
      let c := checkRateLimit acc.1 t ident (rlConfig3 rid)
      (c.2, acc.2 ++ [c.1]))
    ([], [])).2

/-- C2: with `limit=3, window=60s`, four consecutive checks for the same
key within the window yield `allowed=[true,true,true,false]` and
`remaining=[2,1,0,0]`; a check issued after the window expiry creates a
fresh entry whose count after the check is 1; in every (enabled) case
`allowed = (count <= limit)` and `remaining = max(0, limit - count)`
(`Nat` subtraction), and when not allowed
`retryAfter = ceil((resetAt - now) / 1000)`. -/
theorem checkRateLimit_spec :
    (∀ (t1 t2 t3 t4 : Nat) (ident rid : String),
       t2 ≤ t1 + 60000 → t3 ≤ t1 + 60000 → t4 ≤ t1 + 60000 →
       (rlConsecutive [t1, t2, t3, t4] ident rid).map (fun r => r.allowed)
           = [true, true, true, false] ∧
       (rlConsecutive [t1, t2, t3, t4] ident rid).map (fun r => r.remaining)
           = [some 2, some 1, some 0, some 0]) ∧
    (∀ (store : RLStore) (now : Nat) (ident : String) (cfg : RLConfig) (e : RLEntry),
       cfg.enabled = true →
       rlGet store (generateKey ident cfg.routeId) = some e →
       e.resetAt < now →
       rlGet (checkRateLimit store now ident cfg).2 (generateKey ident cfg.routeId)
         = some { count := 1, resetAt := now + cfg.window * 1000 }) ∧
    (∀ (store : RLStore) (now : Nat) (ident : String) (cfg : RLConfig),
       cfg.enabled = true →
       ∃ e, rlGet (checkRateLimit store now ident cfg).2 (generateKey ident cfg.routeId)
              = some e ∧
         (checkRateLimit store now ident cfg).1.allowed = decide (e.count ≤ cfg.requests) ∧
         (checkRateLimit store now ident cfg).1.remaining
           = some (cfg.requests - e.count) ∧
         ((checkRateLimit store now ident cfg).1.allowed = false →
           (checkRateLimit store now ident cfg).1.retryAfter
             = some ((e.resetAt - now + 999) / 1000))) := by
  refine ⟨?_, ?_, ?_⟩
  · intro t1 t2 t3 t4 ident rid h2 h3 h4
    have hwin : (rlConfig3 rid).window * 1000 = 60000 := by
      have h : (rlConfig3 rid).window = 60 := rfl
      rw [h]
    obtain ⟨ha1, hr1, hs1⟩ :=
      rl_fresh [] t1 ident (rlConfig3 rid) rfl rfl
    rw [hwin] at hs1
    obtain ⟨ha2, hr2, hs2⟩ :=
      rl_live (checkRateLimit [] t1 ident (rlConfig3 rid)).2 t2 ident (rlConfig3 rid)
        rfl 1 (t1 + 60000)
        (by rw [hs1]; exact rlGet_rlSet_self _ _ _) (by omega)
    obtain ⟨ha3, hr3, hs3⟩ :=
      rl_live (checkRateLimit (checkRateLimit [] t1 ident (rlConfig3 rid)).2 t2 ident
          (rlConfig3 rid)).2 t3 ident (rlConfig3 rid)
        rfl 2 (t1 + 60000)
        (by rw [hs2]; exact rlGet_rlSet_self _ _ _) (by omega)
    obtain ⟨ha4, hr4, hs4⟩ :=
      rl_live (checkRateLimit (checkRateLimit (checkRateLimit [] t1 ident
          (rlConfig3 rid)).2 t2 ident (rlConfig3 rid)).2 t3 ident (rlConfig3 rid)).2
        t4 ident (rlConfig3 rid)
        rfl 3 (t1 + 60000)
        (by rw [hs3]; exact rlGet_rlSet_self _ _ _) (by omega)
    simp only [rlConsecutive, List.foldl, List.nil_append, List.append_nil,
      List.cons_append, List.map_cons, List.map_nil]
    rw [ha1, ha2, ha3, ha4, hr1, hr2, hr3, hr4]
    have hreq : (rlConfig3 rid).requests = 3 := rfl
    rw [hreq]
    exact ⟨by decide, by decide⟩
  · intro store now ident cfg e hen hget hexp
    obtain ⟨e2, _, hget2, hcount, hreset, _⟩ := checkRateLimit_step store now ident cfg hen
    have hbase : rlBase store now (generateKey ident cfg.routeId) (cfg.window * 1000)
        = { count := 0, resetAt := now + cfg.window * 1000 } := by
      simp [rlBase, hget, hexp]
    rw [hbase] at hcount hreset
    have : e2 = { count := 1, resetAt := now + cfg.window * 1000 } := by
      cases e2; simp_all
    rw [← this]; exact hget2
  · intro store now ident cfg hen
    obtain ⟨e2, _, hget2, _, _, hallow, hrem, _, hretry⟩ :=
      checkRateLimit_step store now ident cfg hen
    exact ⟨e2, hget2, hallow, hrem, hretry⟩

/-- C2 witness: the theorem applied at concrete inputs (times
`0,1,2,3`, an expired stored entry, and a live store). -/
theorem checkRateLimit_spec_witness :
    ((rlConsecutive [0, 1, 2, 3] "203.0.113.9" "route1").map (fun r => r.allowed)
        = [true, true, true, false] ∧
     (rlConsecutive [0, 1, 2, 3] "203.0.113.9" "route1").map (fun r => r.remaining)
        = [some 2, some 1, some 0, some 0]) ∧
    rlGet (checkRateLimit [("route1:203.0.113.9", { count := 7, resetAt := 5 })]
        100 "203.0.113.9" (rlConfig3 "route1")).2 (generateKey "203.0.113.9" "route1")
      = some { count := 1, resetAt := 100 + 60 * 1000 } ∧
    ∃ e, rlGet (checkRateLimit [] 0 "203.0.113.9" (rlConfig3 "route1")).2
           (generateKey "203.0.113.9" "route1") = some e ∧
      (checkRateLimit [] 0 "203.0.113.9" (rlConfig3 "route1")).1.allowed
        = decide (e.count ≤ (rlConfig3 "route1").requests) ∧
      (checkRateLimit [] 0 "203.0.113.9" (rlConfig3 "route1")).1.remaining
        = some ((rlConfig3 "route1").requests - e.count) ∧
      ((checkRateLimit [] 0 "203.0.113.9" (rlConfig3 "route1")).1.allowed = false →
        (checkRateLimit [] 0 "203.0.113.9" (rlConfig3 "route1")).1.retryAfter
          = some ((e.resetAt - 0 + 999) / 1000)) :=
  ⟨checkRateLimit_spec.1 0 1 2 3 "203.0.113.9" "route1"
      (by omega) (by omega) (by omega),
   checkRateLimit_spec.2.1 [("route1:203.0.113.9", { count := 7, resetAt := 5 })]
      100 "203.0.113.9" (rlConfig3 "route1") { count := 7, resetAt := 5 }
      rfl (by decide) (by decide),
   checkRateLimit_spec.2.2 [] 0 "203.0.113.9" (rlConfig3 "route1") rfl⟩

/-! ## C10 — the counter increments by one, other keys untouched -/

/-- C10: with an enabled configuration, every call — including a denied
one — leaves the stored counter of its key at its previous in-window
value plus one (an absent entry counts as zero), and leaves every other
key's entry unchanged; with `enabled=false` the call returns
`allowed=true` (`remaining=Infinity`, `resetAt=null`) and does not
mutate the store at all. -/
theorem checkRateLimit_invariants :
    (∀ (store : RLStore) (now : Nat) (ident : String) (cfg : RLConfig),
       cfg.enabled = true →
       (∀ e, rlGet store (generateKey ident cfg.routeId) = some e → now ≤ e.resetAt) →
       ∃ e2, rlGet (checkRateLimit store now ident cfg).2
               (generateKey ident cfg.routeId) = some e2 ∧
         e2.count = (match rlGet store (generateKey ident cfg.routeId) with
                     | some e => e.count
                     | none => 0) + 1) ∧
    (∀ (store : RLStore) (now : Nat) (ident : String) (cfg : RLConfig) (k2 : String),
       cfg.enabled = true →
       k2 ≠ generateKey ident cfg.routeId →
       rlGet (checkRateLimit store now ident cfg).2 k2 = rlGet store k2) ∧
    (∀ (store : RLStore) (now : Nat) (ident : String) (cfg : RLConfig),
       cfg.enabled = false →
       checkRateLimit store now ident cfg
         = ({ allowed := true, remaining := none, resetAt := none }, store)) := by
  refine ⟨?_, ?_, ?_⟩
  · intro store now ident cfg hen hlive
    obtain ⟨e2, _, hget2, hc, _, _, _, _, _⟩ := checkRateLimit_step store now ident cfg hen
    refine ⟨e2, hget2, ?_⟩
    rw [hc]
    unfold rlBase
    cases hcase : rlGet store (generateKey ident cfg.routeId) with
    | none => rfl
    | some e =>
      have : ¬ (e.resetAt < now) := by
        have := hlive e hcase
        omega
      simp [this]
  · intro store now ident cfg k2 hen hne
    obtain ⟨e2, hs, _, _, _, _, _, _, _⟩ := checkRateLimit_step store now ident cfg hen
    rw [hs]
    exact rlGet_rlSet_other _ _ _ _ hne
  · intro store now ident cfg hdis
    have hb : (!cfg.enabled) = true := by rw [hdis]; rfl
    simp only [checkRateLimit, hb, if_true]

/-- C10 witness: the three components applied at concrete inputs — a
store whose entry is live (count 5 → 6), an untouched second key, and a
disabled configuration. -/
theorem checkRateLimit_invariants_witness :
    (∃ e2, rlGet (checkRateLimit [("r:i", { count := 5, resetAt := 99 })] 50 "i"
        { routeId := "r", requests := 3, window := 60 }).2
        (generateKey "i" "r") = some e2 ∧
      e2.count = (match rlGet [("r:i", { count := 5, resetAt := 99 })]
                    (generateKey "i" "r") with
                  | some e => e.count
                  | none => 0) + 1) ∧
    rlGet (checkRateLimit [("r:i", { count := 5, resetAt := 99 })] 50 "i"
        { routeId := "r", requests := 3, window := 60 }).2 "other:key"
      = rlGet [("r:i", { count := 5, resetAt := 99 })] "other:key" ∧
    checkRateLimit [("r:i", { count := 5, resetAt := 99 })] 50 "i"
        { routeId := "r", requests := 3, window := 60, enabled := false }
      = ({ allowed := true, remaining := none, resetAt := none },
         [("r:i", { count := 5, resetAt := 99 })]) :=
  ⟨checkRateLimit_invariants.1 [("r:i", { count := 5, resetAt := 99 })] 50 "i"
      { routeId := "r", requests := 3, window := 60 } rfl
      (by
        intro e he
        have hv : rlGet [("r:i", { count := 5, resetAt := 99 })] (generateKey "i" "r")
            = some { count := 5, resetAt := 99 } := by decide
        rw [hv] at he
        cases he
        decide),
   checkRateLimit_invariants.2.1 [("r:i", { count := 5, resetAt := 99 })] 50 "i"
      { routeId := "r", requests := 3, window := 60 } "other:key" rfl (by decide),
   checkRateLimit_invariants.2.2 [("r:i", { count := 5, resetAt := 99 })] 50 "i"
      { routeId := "r", requests := 3, window := 60, enabled := false } rfl⟩

/-! ## Quota step lemmas -/

theorem quota_disabled_step (cal : Nat → Nat) (db : KeyDb) (now : Nat) (kid : String)
    (k : ApiKeyRec) (hfind : dbFindById db kid = some k)
    (hdis : k.quotaEnabled = false) :
    checkAndUpdateQuota cal db now kid = ({ allowed := true }, db) := by
  have hb : (!k.quotaEnabled) = true := by rw [hdis]; rfl
  simp only [checkAndUpdateQuota, hfind, hb, if_true]

theorem quota_reset_step (cal : Nat → Nat) (db : KeyDb) (now : Nat) (kid : String)
    (k : ApiKeyRec) (hfind : dbFindById db kid = some k)
    (hen : k.quotaEnabled = true)
    (hreset : k.quotaResetAt = none ∨ ∃ r, k.quotaResetAt = some r ∧ r ≤ now) :
    checkAndUpdateQuota cal db now kid =
      ({ allowed := true, used := some 1, limit := some k.quotaLimit
         resetAt := some (quotaNextReset cal k.quotaPeriod now) },
       dbUpdateById db kid
         (fun kk =>
           { kk with
             quotaUsed := 1
             quotaResetAt := some (quotaNextReset cal k.quotaPeriod now) })) := by
  have hb : (!k.quotaEnabled) = false := by rw [hen]; rfl
  rcases hreset with hnone | ⟨r, hsome, hle⟩
  · simp only [checkAndUpdateQuota, hfind, hb, Bool.false_eq_true, if_false, hnone, if_true]
  · simp only [checkAndUpdateQuota, hfind, hb, Bool.false_eq_true, if_false, hsome,
      decide_eq_true hle, if_true]

theorem quota_reject_step (cal : Nat → Nat) (db : KeyDb) (now : Nat) (kid : String)
    (k : ApiKeyRec) (hfind : dbFindById db kid = some k)
    (hen : k.quotaEnabled = true) (r : Nat) (hr : k.quotaResetAt = some r)
    (hlive : now < r) (hfull : k.quotaLimit ≤ k.quotaUsed) :
    checkAndUpdateQuota cal db now kid =
      ({ allowed := false, used := some k.quotaUsed, limit := some k.quotaLimit
         resetAt := k.quotaResetAt, error := some "Quota exceeded" }, db) := by
  have hb : (!k.quotaEnabled) = false := by rw [hen]; rfl
  have hdec : decide (r ≤ now) = false := by
    apply decide_eq_false; omega
  simp only [checkAndUpdateQuota, hfind, hb, Bool.false_eq_true, if_false, hr, hdec,
    if_pos hfull]

theorem quota_incr_step (cal : Nat → Nat) (db : KeyDb) (now : Nat) (kid : String)
    (k : ApiKeyRec) (hfind : dbFindById db kid = some k)
    (hen : k.quotaEnabled = true) (r : Nat) (hr : k.quotaResetAt = some r)
    (hlive : now < r) (hroom : k.quotaUsed < k.quotaLimit) :
    checkAndUpdateQuota cal db now kid =
      ({ allowed := true, used := some (k.quotaUsed + 1), limit := some k.quotaLimit
         resetAt := k.quotaResetAt },
       dbUpdateById db kid (fun kk => { kk with quotaUsed := kk.quotaUsed + 1 })) := by
  have hb : (!k.quotaEnabled) = false := by rw [hen]; rfl
  have hdec : decide (r ≤ now) = false := by
    apply decide_eq_false; omega
  have hnotfull : ¬ (k.quotaLimit ≤ k.quotaUsed) := by omega
  simp only [checkAndUpdateQuota, hfind, hb, Bool.false_eq_true, if_false, hr, hdec,
    if_neg hnotfull]

/-! ## C3 — per-credential quota accounting -/

/-- The credential of the claimed scenario: `limit=2, period=day`,
no reset timestamp recorded yet. -/
def qKey2 : ApiKeyRec :=
  { id := "q1", key := "mapi_q", quotaEnabled := true, quotaLimit := 2
    quotaPeriod := "day" }

/-- Run consecutive quota checks at the given times, collecting the
results (threading the key table through the calls). -/
def quotaConsecutive (cal : Nat → Nat) (times : List Nat) (db : KeyDb)
    (kid : String) : List QuotaResult × KeyDb :=
  times.foldl
    (fun (acc : List QuotaResult × KeyDb) t =>
      let c := checkAndUpdateQuota cal acc.2 t kid
      (acc.1 ++ [c.1], c.2))
    ([], db)

/-- The reset boundary computed by the first check of the C3 scenario. -/
def qResetAt1 (cal : Nat → Nat) (n1 : Nat) : Nat :=
  quotaNextReset cal qKey2.quotaPeriod n1

/-- The key table after the first check of the C3 scenario. -/
def qDb1 (cal : Nat → Nat) (n1 : Nat) : KeyDb :=
  dbUpdateById [qKey2] "q1"
    (fun kk => { kk with quotaUsed := 1, quotaResetAt := some (qResetAt1 cal n1) })

/-- The stored credential after the first check. -/
def qKeyAfter1 (cal : Nat → Nat) (n1 : Nat) : ApiKeyRec :=
  { qKey2 with quotaUsed := 1, quotaResetAt := some (qResetAt1 cal n1) }

/-- The key table after the second check. -/
def qDb2 (cal : Nat → Nat) (n1 : Nat) : KeyDb :=
  dbUpdateById (qDb1 cal n1) "q1" (fun kk => { kk with quotaUsed := kk.quotaUsed + 1 })

/-- The stored credential after the second check. -/
def qKeyAfter2 (cal : Nat → Nat) (n1 : Nat) : ApiKeyRec :=
  { qKey2 with quotaUsed := 2, quotaResetAt := some (qResetAt1 cal n1) }

/-- C3: with `limit=2, period=day`, three consecutive checks within the
period yield `used=[1,2,reject]` and the rejection does not increment
the stored counter; a check issued at or after the recorded reset
timestamp (or when none is recorded) resets usage to 1, computes the
next boundary from the configured period, persists it and allows; a
quota-disabled credential is always allowed with no mutation. -/
theorem checkAndUpdateQuota_spec :
    (∀ (cal : Nat → Nat) (n1 n2 n3 : Nat),
       n2 < n1 + 86400000 → n3 < n1 + 86400000 →
       (quotaConsecutive cal [n1, n2, n3] [qKey2] "q1").1.map (fun r => r.allowed)
           = [true, true, false] ∧
       (quotaConsecutive cal [n1, n2, n3] [qKey2] "q1").1.map (fun r => r.used)
           = [some 1, some 2, some 2] ∧
       (dbFindById (quotaConsecutive cal [n1, n2, n3] [qKey2] "q1").2 "q1").map
           (fun k => k.quotaUsed) = some 2) ∧
    (∀ (cal : Nat → Nat) (db : KeyDb) (now : Nat) (kid : String) (k : ApiKeyRec),
       dbFindById db kid = some k → k.quotaEnabled = true →
       (k.quotaResetAt = none ∨ ∃ r, k.quotaResetAt = some r ∧ r ≤ now) →
       (checkAndUpdateQuota cal db now kid).1.allowed = true ∧
       (checkAndUpdateQuota cal db now kid).1.used = some 1 ∧
       (checkAndUpdateQuota cal db now kid).1.resetAt
         = some (quotaNextReset cal k.quotaPeriod now) ∧
       dbFindById (checkAndUpdateQuota cal db now kid).2 kid
         = some { k with quotaUsed := 1
                         quotaResetAt := some (quotaNextReset cal k.quotaPeriod now) }) ∧
    (∀ (cal : Nat → Nat) (db : KeyDb) (now : Nat) (kid : String) (k : ApiKeyRec),
       dbFindById db kid = some k → k.quotaEnabled = false →
       checkAndUpdateQuota cal db now kid = ({ allowed := true }, db)) := by
  refine ⟨?_, ?_, ?_⟩
  · intro cal n1 n2 n3 h2 h3
    have hq : qResetAt1 cal n1 = n1 + 86400000 := rfl
    have hfind1 : dbFindById [qKey2] "q1" = some qKey2 := rfl
    have e1 : checkAndUpdateQuota cal [qKey2] n1 "q1"
        = ({ allowed := true, used := some 1, limit := some 2
             resetAt := some (qResetAt1 cal n1) }, qDb1 cal n1) :=
      quota_reset_step cal [qKey2] n1 "q1" qKey2 hfind1 rfl (Or.inl rfl)
    have hfind2 : dbFindById (qDb1 cal n1) "q1" = some (qKeyAfter1 cal n1) :=
      dbFindById_dbUpdateById [qKey2] "q1" qKey2 _ (fun x => rfl) hfind1
    have e2 : checkAndUpdateQuota cal (qDb1 cal n1) n2 "q1"
        = ({ allowed := true, used := some 2, limit := some 2
             resetAt := some (qResetAt1 cal n1) }, qDb2 cal n1) :=
      quota_incr_step cal (qDb1 cal n1) n2 "q1" (qKeyAfter1 cal n1) hfind2 rfl
        (qResetAt1 cal n1) rfl (by rw [hq]; omega) (by show (1:Nat) < 2; omega)
    have hfind3 : dbFindById (qDb2 cal n1) "q1" = some (qKeyAfter2 cal n1) :=
      dbFindById_dbUpdateById (qDb1 cal n1) "q1" (qKeyAfter1 cal n1) _
        (fun x => rfl) hfind2
    have e3 : checkAndUpdateQuota cal (qDb2 cal n1) n3 "q1"
        = ({ allowed := false, used := some 2, limit := some 2
             resetAt := some (qResetAt1 cal n1), error := some "Quota exceeded" },
           qDb2 cal n1) :=
      quota_reject_step cal (qDb2 cal n1) n3 "q1" (qKeyAfter2 cal n1) hfind3 rfl
        (qResetAt1 cal n1) rfl (by rw [hq]; omega) (by show (2:Nat) ≤ 2; omega)
    have E1b : (checkAndUpdateQuota cal [qKey2] n1 "q1").2 = qDb1 cal n1 := by rw [e1]
    simp only [quotaConsecutive, List.foldl, List.nil_append, List.cons_append,
      List.append_nil, List.map_cons, List.map_nil]
    rw [E1b]
    have E2b : (checkAndUpdateQuota cal (qDb1 cal n1) n2 "q1").2 = qDb2 cal n1 := by
      rw [e2]
    rw [E2b]
    have E3b : (checkAndUpdateQuota cal (qDb2 cal n1) n3 "q1").2 = qDb2 cal n1 := by
      rw [e3]
    rw [E3b, e1, e2, e3, hfind3]
    exact ⟨rfl, rfl, rfl⟩
  · intro cal db now kid k hfind hen hreset
    have e := quota_reset_step cal db now kid k hfind hen hreset
    rw [e]
    refine ⟨rfl, rfl, rfl, ?_⟩
    exact dbFindById_dbUpdateById db kid k _ (fun x => rfl) hfind
  · intro cal db now kid k hfind hdis
    exact quota_disabled_step cal db now kid k hfind hdis

/-- A quota-disabled credential, for the C3 witness. -/
def qKeyDis : ApiKeyRec := { id := "d1", key := "mapi_d", quotaEnabled := false }

/-- C3 witness: the three components applied at concrete inputs (the
calendar function is `fun _ => 0`; period `day` never reaches it). -/
theorem checkAndUpdateQuota_spec_witness :
    ((quotaConsecutive (fun _ => 0) [0, 1, 2] [qKey2] "q1").1.map (fun r => r.allowed)
        = [true, true, false] ∧
     (quotaConsecutive (fun _ => 0) [0, 1, 2] [qKey2] "q1").1.map (fun r => r.used)
        = [some 1, some 2, some 2] ∧
     (dbFindById (quotaConsecutive (fun _ => 0) [0, 1, 2] [qKey2] "q1").2 "q1").map
        (fun k => k.quotaUsed) = some 2) ∧
    ((checkAndUpdateQuota (fun _ => 0) [qKey2] 0 "q1").1.allowed = true ∧
     (checkAndUpdateQuota (fun _ => 0) [qKey2] 0 "q1").1.used = some 1 ∧
     (checkAndUpdateQuota (fun _ => 0) [qKey2] 0 "q1").1.resetAt
       = some (quotaNextReset (fun _ => 0) qKey2.quotaPeriod 0) ∧
     dbFindById (checkAndUpdateQuota (fun _ => 0) [qKey2] 0 "q1").2 "q1"
       = some { qKey2 with
                quotaUsed := 1
                quotaResetAt := some (quotaNextReset (fun _ => 0) qKey2.quotaPeriod 0) }) ∧
    checkAndUpdateQuota (fun _ => 0) [qKeyDis] 5 "d1" = ({ allowed := true }, [qKeyDis]) :=
  ⟨checkAndUpdateQuota_spec.1 (fun _ => 0) 0 1 2 (by omega) (by omega),
   checkAndUpdateQuota_spec.2.1 (fun _ => 0) [qKey2] 0 "q1" qKey2 rfl rfl (Or.inl rfl),
   checkAndUpdateQuota_spec.2.2 (fun _ => 0) [qKeyDis] 5 "d1" qKeyDis rfl rfl⟩

/-! ## C6 — wildcard / permission-list / expiry handling -/

/-- An enabled credential whose permission list names `routeA,routeB`. -/
def c6Key403 : ApiKeyRec := { id := "kid1", key := "mapi_tok1", permissions := "routeA,routeB" }

/-- The route `routeC`, which requires an API key. -/
def c6RouteC : Route := { id := "routeC", path := "/c", method := "GET", authType := "apikey" }

/-- A request presenting `c6Key403`'s token. -/
def c6Req : RequestRec := { path := "/c", headers := [("x-api-key", "mapi_tok1")] }

/-- A wildcard credential whose expiry (5) lies in the past at `now=10`. -/
def c6KeyExp : ApiKeyRec :=
  { id := "kid2", key := "mapi_tok2", permissions := "*", expiresAt := some 5 }

/-- A request presenting `c6KeyExp`'s (correct) token. -/
def c6ReqExp : RequestRec := { path := "/c", headers := [("x-api-key", "mapi_tok2")] }

/-- C6: an enabled, unexpired credential with permission set `*` passes
`hasPermission` for every route id; a credential with permissions
`routeA,routeB` is rejected by `apiAuth` with 403 for route `routeC`;
an expired credential is rejected with 401 even though the presented
token is correct. -/
theorem auth_permissions_spec :
    (∀ (now : Nat) (k : ApiKeyRec) (routeId : String),
       k.enabled = true →
       (∀ e, k.expiresAt = some e → now ≤ e) →
       k.permissions = "*" →
       hasPermission now k routeId = true) ∧
    apiAuth (fun _ => 0) [c6Key403] 0 c6RouteC c6Req
      = (.reject 403 .forbidden, [c6Key403], []) ∧
    apiAuth (fun _ => 0) [c6KeyExp] 10 c6RouteC c6ReqExp
      = (.reject 401 .unauthorized, [c6KeyExp], []) := by
  refine ⟨?_, by decide, by decide⟩
  intro now k routeId hen hexp hperm
  have hb : (!k.enabled) = false := by rw [hen]; rfl
  have hstar : (k.permissions == "*") = true := by rw [hperm]; rfl
  cases hcase : k.expiresAt with
  | none =>
    simp only [hasPermission, hb, Bool.false_eq_true, if_false, hcase, hstar, if_true]
  | some e =>
    have hlt : decide (e < now) = false := by
      apply decide_eq_false
      have := hexp e hcase
      omega
    simp only [hasPermission, hb, Bool.false_eq_true, if_false, hcase, hlt, hstar, if_true]

/-- C6 witness: the wildcard component applied to a concrete enabled,
unexpired credential and an arbitrary concrete route id. -/
theorem auth_permissions_spec_witness :
    hasPermission 10
      { id := "w", key := "mapi_w", permissions := "*", expiresAt := some 99 }
      "someRouteId" = true :=
  auth_permissions_spec.1 10
    { id := "w", key := "mapi_w", permissions := "*", expiresAt := some 99 }
    "someRouteId" rfl (by intro e he; cases he; omega) rfl

/-! ## C9 — the harness temp file is deleted on every exit path -/

/-- C9: whichever way the spawned process terminates — `close` with any
stdout/stderr (sentinel success, parse failure, stderr error, raw
output) or the `error` event (spawn failure) — the handler unlinks the
harness temp file. -/
theorem harness_file_always_unlinked :
    ∀ (parse : String → Option ResultEnv) (tempFile : String) (ev : ExitEvent),
      FsEffect.unlink tempFile ∈ (runJsOnExit parse tempFile ev).1 := by
  intro parse tempFile ev
  cases ev <;> simp [runJsOnExit]

/-! ## C1 — what a timed-out execution actually resolves to -/

/-- C1 (divergence exhibit): after the timeout fires, the child is sent
SIGTERM and its `close` event is delivered with the captured output.  A
hung program has produced neither a sentinel line nor stderr, so the
close handler resolves `{success: true, status: 200, body: null}` — an
empty success, not a 500 timeout failure (there is no timeout branch in
`runJavaScript` at all). -/
theorem timeout_close_resolves_empty_success :
    runJsOnExit (fun _ => none) "harness.js" (.close "" "")
      = ([.unlink "harness.js"],
         { success := true, status := 200, body := .nullB }) := by
  decide

/-! ## Pipeline stage traces (C7, C8) -/

/-- The auth middleware runs at most the quota sub-stage. -/
theorem apiAuth_trace (cal : Nat → Nat) (db : KeyDb) (now : Nat) (route : Route)
    (req : RequestRec) :
    (apiAuth cal db now route req).2.2 = []
      ∨ (apiAuth cal db now route req).2.2 = [Stage.quota] := by
  unfold apiAuth
  split
  · exact Or.inl rfl
  · split
    · exact Or.inl rfl
    · split
      · exact Or.inl rfl
      · split
        · exact Or.inl rfl
        · split
          · exact Or.inl rfl
          · refine Or.inr ?_
            dsimp only
            split <;> rfl

/-- A stub execution adapter used by the concrete pipeline scenarios. -/
def execStub : ExecContext → RunResult := fun _ => { success := true, status := 200 }

/-! ## C7 — actual pipeline order: quota (inside auth) before rate limit -/

/-- C7 counterexample scenario: a quota-enabled credential… -/
def c7Key : ApiKeyRec :=
  { id := "k1", key := "mapi_t", permissions := "*", quotaEnabled := true
    quotaLimit := 100, quotaUsed := 0, quotaResetAt := some 1000000 }

/-- …a rate-limited route (limit 1 per 60 s, keyed by ip)… -/
def c7Route : Route :=
  { id := "r1", path := "/p", method := "GET", authType := "apikey"
    rateLimitEnabled := true, rateLimitRequests := 1, rateLimitWindow := 60 }

/-- …a request presenting the credential… -/
def c7Req : RequestRec :=
  { path := "/p", ip := "ip0", headers := [("x-api-key", "mapi_t")] }

/-- …and a rate-limit store whose window for this key is already full. -/
def c7Store : RLStore := [("r1:ip0", { count := 1, resetAt := 900000 })]

/-- C7 counterexample: this request is rejected by the rate limiter with
429, yet the credential's stored quota usage has been incremented from
0 to 1 — the quota check ran (inside the auth middleware) before the
rate-limit check, refuting "a request rejected by the rate limiter
never consumes quota". -/
theorem rate_limited_request_consumed_quota :
    (handleRequest execStub (fun _ => 0) [c7Route] [c7Key] c7Store 100 c7Req).1
      = { status := 429, kind := .rateLimited } ∧
    c7Key.quotaUsed = 0 ∧
    dbFindById
      (handleRequest execStub (fun _ => 0) [c7Route] [c7Key] c7Store 100 c7Req).2.1
      "k1" = some { c7Key with quotaUsed := 1 } := by
  decide

/-- C7 (amended): the pipeline stages run in the order RouteResolver,
AuthDispatcher (which performs the quota check internally), RateLimiter,
ExecutionEngine — every emitted stage trace is a sublist of that order,
with `.quota` before `.rateLimit`; consequently a rate-limited request
may already have consumed quota, as the concrete scenario shows. -/
theorem pipeline_stage_order :
    (∀ (exec : ExecContext → RunResult) (cal : Nat → Nat) (routes : List Route)
       (db : KeyDb) (store : RLStore) (now : Nat) (req : RequestRec),
       List.Sublist (handleRequest exec cal routes db store now req).2.2.2
         [Stage.resolve, Stage.auth, Stage.quota, Stage.rateLimit, Stage.execute]) ∧
    ((handleRequest execStub (fun _ => 0) [c7Route] [c7Key] c7Store 100 c7Req).1
        = { status := 429, kind := .rateLimited } ∧
     dbFindById
       (handleRequest execStub (fun _ => 0) [c7Route] [c7Key] c7Store 100 c7Req).2.1
       "k1" = some { c7Key with quotaUsed := 1 }) := by
  constructor
  · intro exec cal routes db store now req
    unfold handleRequest
    split
    · exact (by decide :
        List.Sublist ([Stage.resolve] : List Stage)
          [Stage.resolve, Stage.auth, Stage.quota, Stage.rateLimit, Stage.execute])
    · rename_i route hres
      split
      · exact (by decide :
          List.Sublist ([Stage.resolve] : List Stage)
            [Stage.resolve, Stage.auth, Stage.quota, Stage.rateLimit, Stage.execute])
      · have hatr := apiAuth_trace cal db now route req
        rcases happ : apiAuth cal db now route req with ⟨out, db1, atr⟩
        rw [happ] at hatr
        dsimp only at hatr
        cases out with
        | reject st kind =>
          dsimp only
          rcases hatr with hatr | hatr <;> rw [hatr] <;> decide
        | allow keyOpt =>
          dsimp only
          cases hre : route.rateLimitEnabled with
          | false =>
            simp only [hre, Bool.false_eq_true, if_false]
            rcases hatr with hatr | hatr <;> rw [hatr] <;> decide
          | true =>
            simp only [hre, if_true]
            split
            · rename_i resp store1 rtr heq
              repeat' split at heq
              all_goals
                (injection heq with h1 h23; injection h23 with h2 h3; subst h3;
                  rcases hatr with hatr | hatr <;> rw [hatr] <;> dsimp only <;> decide)
            · rename_i store1 rtr heq
              repeat' split at heq
              all_goals
                (injection heq with h1 h23; injection h23 with h2 h3; subst h3;
                  rcases hatr with hatr | hatr <;> rw [hatr] <;> dsimp only <;> decide)
  · exact ⟨by decide, by decide⟩

/-! ## C8 — disabled routes are matched (no enabled filter) and map to 503 -/

/-- A disabled parameterized route. -/
def c8Route : Route :=
  { id := "r8", path := "/users/:id", method := "GET", enabled := false }

/-- A request for a path that only `c8Route` matches. -/
def c8Req : RequestRec := { path := "/users/5" }

/-- C8 counterexample: the parameterized scan is **not** restricted to
enabled routes — with a single disabled route stored, resolution still
returns it (a scan over enabled routes only would return `none`). -/
theorem resolver_scans_disabled_routes :
    findMatchingRoute [c8Route] "/users/5" "GET" = some c8Route ∧
    c8Route.enabled = false := by
  decide

/-- C8 (amended): route resolution scans all stored routes of the method
regardless of the `enabled` flag — whenever any route of the method
matches (enabled or not), resolution succeeds — and a request resolving
to a route whose `enabled` flag is false is answered 503 (`disabled`),
not 404: the pipeline consults the flag explicitly after resolution. -/
theorem disabled_route_resolution_spec :
    (∀ (routes : List Route) (path method : String),
       (∃ r ∈ routes, r.method = method ∧ matchPath r.path path = true) →
       (findMatchingRoute routes path method).isSome = true) ∧
    (∀ (exec : ExecContext → RunResult) (cal : Nat → Nat) (routes : List Route)
       (db : KeyDb) (store : RLStore) (now : Nat) (req : RequestRec) (r : Route),
       findMatchingRoute routes req.path req.method = some r →
       r.enabled = false →
       (handleRequest exec cal routes db store now req).1
         = { status := 503, kind := .disabled }) := by
  constructor
  · intro routes path method ⟨r, hr, hm, hmp⟩
    unfold findMatchingRoute
    cases hfirst : routes.find? (fun r => r.path == path && r.method == method) with
    | some r2 => rfl
    | none =>
      have hmem : r ∈ routes.filter (fun r => r.method == method) := by
        rw [List.mem_filter]
        exact ⟨hr, by simp [hm]⟩
      have : ((routes.filter (fun r => r.method == method)).find?
          (fun r => matchPath r.path path)).isSome := by
        rw [List.find?_isSome]
        exact ⟨r, hmem, hmp⟩
      simpa using this
  · intro exec cal routes db store now req r hres hdis
    have hb : (!r.enabled) = true := by rw [hdis]; rfl
    simp only [handleRequest, hres, hb, if_true]

/-- C8 witness: the amended theorem applied to the concrete disabled
route — the pipeline answers 503, and resolution finds the (disabled)
route. -/
theorem disabled_route_resolution_spec_witness :
    (findMatchingRoute [c8Route] "/users/5" "GET").isSome = true ∧
    (handleRequest execStub (fun _ => 0) [c8Route] [] [] 0 c8Req).1
      = { status := 503, kind := .disabled } :=
  ⟨disabled_route_resolution_spec.1 [c8Route] "/users/5" "GET"
      ⟨c8Route, by simp, rfl, by decide⟩,
   disabled_route_resolution_spec.2 execStub (fun _ => 0) [c8Route] [] [] 0 c8Req
      c8Route (by decide) rfl⟩

end MApi
